import Mathlib

/-!
Verification of the Honeycomb service platform against its natural-language
specification.  The definitions below are shallow embeddings of the
JavaScript sources:

* `src/core/index.js`                — Sandbox container and plugin framework
* `src/hc2/packages/cloud/proxy.js`  — client SDK (`HC2Proxy`, `ServiceProxy`,
                                       `HC2Result`)
* `src/unnamed/part_002`             — `HC2Instance` (certificate authority and
                                       registry operations)
* `src/unnamed/part_003`             — `ServiceCertificateTemplate`
* `src/docker/hc2/index.js`          — registry HTTP handlers
* `src/docker/hc2-proxy/index.js`    — change propagator / profile view

Machine-level nondeterminism of the sources (UUIDs, timestamps, random
aliases, the network) is threaded through as explicit parameters, and
fallible steps return `Option`/`Except`.
-/

namespace Honeycomb

/-! Section: A model of JavaScript runtime values

Only the type-level structure that the sources inspect (via `typeof`,
`Array.isArray`, `=== null`, `=== undefined`) is represented.  Object fields
and array elements are modelled as flat association lists of numbers, which
is enough for every discrimination the code performs. -/

inductive JsVal where
  | undef : JsVal
  | jsNull : JsVal
  | boolV : Bool → JsVal
  | numV : Int → JsVal
  | strV : String → JsVal
  | arrV : List Int → JsVal
  | objV : List (String × Int) → JsVal
deriving DecidableEq, Repr

/-- Embeds `Array.isArray(result)` from `src/core` plugin helpers. -/
def isArrayV : JsVal → Bool
  | .arrV _ => true
  | _ => false

/-- Embeds `result !== null && typeof result === 'object' && !isArray(result)`
from `src/core` plugin helpers. -/
def isObjectV : JsVal → Bool
  | .objV _ => true
  | _ => false

/-- Embeds `result === undefined` from `src/core` plugin helpers. -/
def isUndefinedV : JsVal → Bool
  | .undef => true
  | _ => false

/-! Section: Plugin framework (`PluginProvider` in `src/core`)

A plugin handler invocation either throws (`Except.error`) or returns a
JavaScript value.  The original method is modelled as a pure function from
argument lists to a value. -/

/-- Embeds `validatePluginOutput`: plugin return values must be an array, an
object or `undefined`, otherwise a `TypeError` is thrown. -/
def validatePluginOutput (input : JsVal) : Except Unit JsVal :=
  if !isArrayV input && !isObjectV input && !isUndefinedV input then
    .error ()
  else
    .ok input

/-- Embeds the signature-shape inference of the `pre_ex` wrapper:
`args.length === 1 && typeof args[0] === 'object' && args[0] !== null &&
!Array.isArray(args[0])`. -/
def originalAcceptsOptionsObject (args : List JsVal) : Bool :=
  match args with
  | [.objV _] => true
  | _ => false

/-- Which argument list the `pre_ex` wrapper finally passes to the original
method, and whether it got there by the normal path (`forwarded`) or by the
catch-all fallback after a thrown error (`fellBack`).  In either case the
original ends up being invoked with the recorded arguments. -/
inductive PreExPath where
  | forwarded : List JsVal → PreExPath
  | fellBack : List JsVal → PreExPath
deriving DecidableEq, Repr

/-- Embeds the `pre_ex` branch of `PluginProvider.applyPlugin`
(`src/core/index.js`): the handler result is validated, shape-checked
against the inferred signature of the original call, and on any thrown
error the wrapper falls through to the original with the caller's
arguments. -/
def preExPath (args : List JsVal) (handlerOutcome : Except Unit JsVal) :
    PreExPath :=
  match handlerOutcome with
  | .error _ => .fellBack args
  | .ok raw =>
    match validatePluginOutput raw with
    | .error _ => .fellBack args
    | .ok pluginResult =>
      if pluginResult = JsVal.undef then
        -- `pluginResult !== undefined` guard not taken: modifiedArgs = args
        .forwarded args
      else
        let isArr := isArrayV pluginResult
        let isObj := isObjectV pluginResult
        if originalAcceptsOptionsObject args && !isObj then
          .fellBack args
        else if !originalAcceptsOptionsObject args && !isArr then
          .fellBack args
        else
          match pluginResult with
          | .objV fields => .forwarded [JsVal.objV fields]
          | .arrV elems => .forwarded (elems.map JsVal.numV)
          | _ => .fellBack args

/-- Spec-side restatement of the pre-mode shape rule, written from the
specification's words (§4.6 table, row `pre`): an `undefined` return
forwards the original arguments; when the original accepted a single
non-array options object, only an object return is conforming and replaces
the single argument; when the original took positional arguments, only an
array return is conforming and replaces the positional arguments; every
other shape (and a throwing handler) aborts the wrapper path, falling back
to the original arguments. -/
def preExPathSpec (args : List JsVal) (handlerOutcome : Except Unit JsVal) :
    PreExPath :=
  match handlerOutcome with
  | .error _ => .fellBack args
  | .ok r =>
    match r with
    | .undef => .forwarded args
    | .objV fields =>
      if originalAcceptsOptionsObject args then .forwarded [JsVal.objV fields]
      else .fellBack args
    | .arrV elems =>
      if originalAcceptsOptionsObject args then .fellBack args
      else .forwarded (elems.map JsVal.numV)
    | _ => .fellBack args

/-- Embeds the `post_ex` branch of `PluginProvider.applyPlugin`
(`src/core/index.js`): the original runs first with the caller's arguments;
the handler is then invoked with `(args..., result)`.  The wrapper body
only executes `return result` inside the `catch` block, so when the handler
succeeds the arrow function falls off its end and returns `undefined`. -/
def postExWrap (original : List JsVal → JsVal)
    (handler : List JsVal → JsVal → Except Unit Unit)
    (args : List JsVal) : JsVal :=
  let result := original args
  match handler args result with
  | .ok _ => JsVal.undef
  | .error _ => result

/-! Section: Result envelope (`HC2Result` in `src/hc2/packages/cloud/proxy.js`)

The constructor receives an options object; absent members are modelled with
`Option`.  `Object.freeze` is modelled JavaScript-faithfully: a frozen
object's `frozen` flag is set and every (non-strict mode) property
assignment on a frozen object is a silent no-op, so the setters below
return the object unchanged exactly when the flag is set. -/

structure HC2ErrorInput where
  code : String
  message : String
  source : Option String
  retryable : Option Bool
deriving DecidableEq, Repr

structure HC2ErrorOut where
  code : String
  message : String
  source : String
  retryable : Bool
deriving DecidableEq, Repr

structure HC2Metadata where
  service : Option String
  method : Option String
  source : String
  timestamp : Nat
  frozen : Bool
deriving DecidableEq, Repr

structure HC2ResultObj where
  metadata : HC2Metadata
  hasError : Bool
  data : JsVal
  error : Option HC2ErrorOut
  frozen : Bool
deriving DecidableEq, Repr

/-- Embeds the `HC2Result` constructor: `hasError = Boolean(error)`;
`__metadata` is frozen; `data = hasError ? null : data ?? {}`;
`error = hasError ? {code, message, source: error.source ?? source,
retryable: error.retryable ?? false} : null`; finally `Object.freeze(this)`. -/
def mkHC2Result (service method : Option String) (source : String)
    (timestamp : Nat) (data : Option JsVal) (error : Option HC2ErrorInput) :
    HC2ResultObj :=
  let hasError := error.isSome
  { metadata :=
      { service := service
        method := method
        source := source
        timestamp := timestamp
        frozen := true }
    hasError := hasError
    data := if hasError then JsVal.jsNull else data.getD (JsVal.objV [])
    error :=
      match error with
      | some e =>
        some { code := e.code
               message := e.message
               source := e.source.getD source
               retryable := e.retryable.getD false }
      | none => none
    frozen := true }

/-- Attempted assignment `r.hasError = b` under JavaScript frozen-object
semantics (silent no-op on a frozen receiver). -/
def setHasError (r : HC2ResultObj) (b : Bool) : HC2ResultObj :=
  if r.frozen then r else { r with hasError := b }

/-- Attempted assignment `r.data = v` under frozen-object semantics. -/
def setData (r : HC2ResultObj) (v : JsVal) : HC2ResultObj :=
  if r.frozen then r else { r with data := v }

/-- Attempted assignment `r.error = e` under frozen-object semantics. -/
def setError (r : HC2ResultObj) (e : Option HC2ErrorOut) : HC2ResultObj :=
  if r.frozen then r else { r with error := e }

/-- Attempted assignment `r.__metadata.source = s` (representative of any
`__metadata` field write): governed by the metadata object's own frozen
flag. -/
def setMetadataSource (r : HC2ResultObj) (s : String) : HC2ResultObj :=
  if r.metadata.frozen then r
  else { r with metadata := { r.metadata with source := s } }

/-- Attempted assignment `r.__metadata.timestamp = t` under frozen-object
semantics. -/
def setMetadataTimestamp (r : HC2ResultObj) (t : Nat) : HC2ResultObj :=
  if r.metadata.frozen then r
  else { r with metadata := { r.metadata with timestamp := t } }

/-- Embeds `HC2Result.error`: source defaults to `'sdk'`. -/
def hc2ResultError (service method : Option String) (timestamp : Nat)
    (error : HC2ErrorInput) : HC2ResultObj :=
  mkHC2Result service method "sdk" timestamp none (some error)

/-! Section: Client SDK dispatch (`HC2Proxy`/`ServiceProxy` in
`src/hc2/packages/cloud/proxy.js`) -/

/-- The property names short-circuited by both proxy `get` traps. -/
def EXCLUDED_BUILTIN_METHODS : List String :=
  ["toJSON", "toString", "valueOf", "inspect", "constructor"]

structure MethodSchema where
  name : String
deriving DecidableEq, Repr

/-- A route-table entry: the published API of a registered service. -/
structure ServiceApi where
  methods : List MethodSchema
deriving DecidableEq, Repr

/-- What a property read on a `ServiceProxy` evaluates to. -/
inductive ServiceProxyMember where
  /-- `Reflect.get` on the empty proxy target (inherited builtin). -/
  | builtin : ServiceProxyMember
  /-- No schema matched the method name: the trap logs and returns
  `undefined`. -/
  | missing : ServiceProxyMember
  /-- A schema matched: the trap returns the async RPC dispatch closure. -/
  | callable : ServiceProxyMember
deriving DecidableEq, Repr

/-- Embeds the `get` trap of `ServiceProxy` (`src/hc2/packages/cloud/proxy.js`
lines 138–171), for string property names. -/
def serviceProxyGet (api : ServiceApi) (methodName : String) :
    ServiceProxyMember :=
  if EXCLUDED_BUILTIN_METHODS.contains methodName then .builtin
  else if (api.methods.find? (fun el => methodName == el.name)).isSome then
    .callable
  else .missing

/-- Invoking the RPC dispatch closure returned for a known method: on RPC
success the raw response body is returned as-is; a thrown RPC error is
caught, logged, and the `async` function falls off its end, resolving to
`undefined`.  Neither branch wraps the value in an `HC2Result`. -/
def serviceMethodInvoke (rpcOutcome : Except Unit JsVal) : JsVal :=
  match rpcOutcome with
  | .ok v => v
  | .error _ => JsVal.undef

/-- What a property read on `HC2Proxy.my` evaluates to. -/
inductive MyMember where
  | builtin : MyMember
  /-- The service is in `ctx.services`: a fresh `ServiceProxy` over the
  route-table entry (which `Map.get` may fail to find). -/
  | serviceProxy : String → Option ServiceApi → MyMember
  /-- Unknown service: an `HC2_ROUTE_NOT_FOUND` error envelope. -/
  | errorEnvelope : HC2ResultObj → MyMember
deriving DecidableEq, Repr

/-- Embeds the `get` trap of the `HC2Proxy.my` proxy
(`src/hc2/packages/cloud/proxy.js` lines 216–259), for string property
names. -/
def myGet (services : List String) (routeTable : List (String × ServiceApi))
    (name : String) (timestamp : Nat) : MyMember :=
  if EXCLUDED_BUILTIN_METHODS.contains name then .builtin
  else if services.contains name then
    .serviceProxy name ((routeTable.find? (fun p => p.1 == name)).map (·.2))
  else
    .errorEnvelope
      (hc2ResultError (some name) none timestamp
        { code := "HC2_ROUTE_NOT_FOUND"
          message := "Service not known to HC2Proxy SDK"
          source := none
          retryable := some true })

/-- Observable outcome of the full expression `my[X].m(params)`. -/
inductive InvokeOutcome where
  /-- `my[X].m` evaluated to `undefined` (or to a missing property of an
  error envelope), so applying it throws a `TypeError` at the caller. -/
  | threwTypeError : InvokeOutcome
  /-- An inherited builtin function was invoked. -/
  | builtinResult : InvokeOutcome
  /-- The RPC dispatch closure ran and produced this raw value. -/
  | raw : JsVal → InvokeOutcome
deriving DecidableEq, Repr

/-- Embeds the evaluation of `my[X].m(params)` end to end: read `X` on the
`my` proxy, read `m` on whatever that produced, and apply it.  Property
reads of an application method name `m` on an error-envelope object or on a
`ServiceProxy` built over a missing route-table entry yield `undefined` /
a thrown lookup, so applying the result throws. -/
def myInvoke (services : List String)
    (routeTable : List (String × ServiceApi)) (serviceName methodName : String)
    (timestamp : Nat) (rpcOutcome : Except Unit JsVal) : InvokeOutcome :=
  match myGet services routeTable serviceName timestamp with
  | .errorEnvelope _ => .threwTypeError
  | .builtin => .builtinResult
  | .serviceProxy _ none => .threwTypeError
  | .serviceProxy _ (some api) =>
    match serviceProxyGet api methodName with
    | .builtin => .builtinResult
    | .missing => .threwTypeError
    | .callable => .raw (serviceMethodInvoke rpcOutcome)

/-! Section: Sandbox capability boundary (`Sandbox.#declare` in `src/core/index.js`) -/

structure Policy where
  allowedAPIs : List String
deriving DecidableEq, Repr

/-- Embeds `(this.#policies[moduleId] && this.#policies[moduleId].allowedAPIs)
|| []`: the allow-set of a module defaults to empty when no policy entry
exists. -/
def allowedAPIsOf (policies : List (String × Policy)) (moduleId : String) :
    List String :=
  match policies.find? (fun p => p.1 == moduleId) with
  | some p => p.2.allowedAPIs
  | none => []

/-- Result of a property read through the restricted `my` proxy. -/
inductive AccessResult where
  /-- `POLICY_ERROR: Access to API denied` thrown by the `get` trap. -/
  | policyError : AccessResult
  /-- `INTERNAL_ERROR (core): The service does NOT exist` thrown by the
  `get` trap. -/
  | notFoundError : AccessResult
  /-- The backing `my[prop]` slot is read (triggering lazy construction). -/
  | grants : String → AccessResult
deriving DecidableEq, Repr

/-- Embeds the `get` trap of `restrictedMy` (`src/core/index.js` lines
189–214), for string property names: deny unless the name is in the
module's allow-set; then fail with a not-found error unless the backing
`my` object has the property; otherwise forward to the backing slot. -/
def restrictedMyGet (policies : List (String × Policy))
    (registered : List String) (moduleId prop : String) : AccessResult :=
  let allowedSet := allowedAPIsOf policies moduleId
  if !allowedSet.contains prop then .policyError
  else if !registered.contains prop then .notFoundError
  else .grants prop

/-! Section: Lazy module construction (`src/core/index.js` lines 94–116)

The lazy getter checks `!my[internalKey]`, invokes the factory inside
`try`/`catch` (a thrown construction leaves the internal key unset and is
only logged), and returns `my[internalKey]`.  The factory's behaviour on
its `i`-th invocation is supplied as `factory i`; module instances are
objects, hence truthy, so the cached-check is modelled by `Option`. -/

structure SlotState where
  /-- `my[internalKey]`: `none` models `undefined` (falsy). -/
  cached : Option Nat
  /-- How many times the factory has been invoked so far. -/
  invocations : Nat
deriving DecidableEq, Repr

/-- The initial slot state: no instance, no invocations. -/
def initSlot : SlotState := { cached := none, invocations := 0 }

/-- One property read of a lazy module slot: returns the new state and the
value the getter returns (`my[internalKey]`, possibly still `undefined`
after a construction failure). -/
def readSlot (factory : Nat → Except Unit Nat) (s : SlotState) :
    SlotState × Option Nat :=
  match s.cached with
  | some v => (s, some v)
  | none =>
    match factory s.invocations with
    | .ok v =>
      ({ cached := some v, invocations := s.invocations + 1 }, some v)
    | .error _ =>
      ({ cached := none, invocations := s.invocations + 1 }, none)

/-- The slot state after a sequence of `n` property reads. -/
def runReads (factory : Nat → Except Unit Nat) : Nat → SlotState
  | 0 => initSlot
  | n + 1 => (readSlot factory (runReads factory n)).1

/-! Section: Service manifests, certificates and claim validation
(`src/unnamed/part_002`, `src/unnamed/part_003`) -/

structure ServiceNetwork where
  internalOnly : Bool
  publicHostName : String
  rpcEndpoint : String
deriving DecidableEq, Repr

structure ServiceManifest where
  name : String
  version : String
  dependsOn : List String
  ports : List Int
  api : ServiceApi
  network : ServiceNetwork
deriving DecidableEq, Repr

/-- The claim body of a certificate request / registration request: the
fields shared between the certificate payload and the registration payload
(the certificate itself excluded). -/
structure CertClaims where
  app : String
  service : ServiceManifest
deriving DecidableEq, Repr

structure CertMetadata where
  deploymentId : String
  certificateId : String
  hc2InstanceId : String
  issuedAt : Nat
  expiresAt : Nat
deriving DecidableEq, Repr

/-- `generateServiceCert` copies the request claims verbatim and appends
`metadata`. -/
structure CertPayload where
  claims : CertClaims
  metadata : CertMetadata
deriving DecidableEq, Repr

structure CertEnvelope where
  payload : CertPayload
  signature : String
deriving DecidableEq, Repr

/-- Embeds `ServiceCertificateTemplate` (`src/unnamed/part_003` lines
47–116).  The constructor adds exactly one `const` claim — `addConstant
("app", certBody.app)` — and then `addProperty ("service", …)` with a fixed
*structural* subschema: `name`/`version` are merely `type: string`,
`dependsOn` and `ports` are arrays with `minItems: 1`, and `network`
requires its three fields.  No field of `service` is constrained to the
certificate's value. -/
structure ServiceCertificateTemplateSchema where
  appConst : String
deriving DecidableEq, Repr

def serviceCertificateTemplate (cert : CertEnvelope) :
    ServiceCertificateTemplateSchema :=
  { appConst := cert.payload.claims.app }

/-- Ajv validation of the template's root schema against the registration
request body (certificate removed).  In this typed model every declared
field is present with its declared primitive type, so the only residual
checks are the single `const` property and the two `minItems: 1`
constraints. -/
def ajvValidateTemplate (schema : ServiceCertificateTemplateSchema)
    (request : CertClaims) : Bool :=
  (request.app == schema.appConst)
    && decide (1 ≤ request.service.dependsOn.length)
    && decide (1 ≤ request.service.ports.length)

/-- The body of a `POST /api/v1/services` request after the handler parses
the embedded certificate. -/
structure RegistrationPayload where
  app : String
  service : ServiceManifest
  cert : CertEnvelope
deriving DecidableEq, Repr

/-- Embeds `HC2Instance.validateCertificateClaims` (`src/unnamed/part_002`
lines 126–144): destructure the certificate out of the payload, build the
template schema from it, and Ajv-validate the remaining request fields. -/
def validateCertificateClaims (reg : RegistrationPayload) : Bool :=
  let certTemplate := serviceCertificateTemplate reg.cert
  ajvValidateTemplate certTemplate { app := reg.app, service := reg.service }

/-! Section: Registration (`HC2Instance.registerService`, `POST /api/v1/services`)

UUIDs, the pet-name alias, the nonce, timestamps, the exported public key
and the certificate hash are nondeterministic/ambient inputs of
`registerService`; they are threaded in as `FreshData`. -/

structure Receipt where
  app : String
  serviceId : String
  serviceName : String
  /-- The source field `alias` (a reserved word in Lean). -/
  aliasName : String
  callbackURL : String
  createdAt : Nat
  expiresAt : Nat
  hc2InstanceId : String
  hc2InstancePublicKey : String
  hc2ServiceCertificateHash : String
  id : String
  nonce : String
  urn : String
deriving DecidableEq, Repr

structure FreshData where
  serviceId : String
  receiptId : String
  docId : String
  /-- The source field `alias` (a reserved word in Lean). -/
  aliasName : String
  nonce : String
  now : Nat
  publicKeyPem : String
  certHash : String
deriving DecidableEq, Repr

/-- In-memory state of an `HC2Instance`: the service registry map and the
registered-name set (`src/unnamed/part_002` lines 31–32). -/
structure RegistryState where
  serviceRegistry : List (String × Receipt)
  services : List String
deriving DecidableEq, Repr

/-- Embeds the receipt synthesis of `registerService` (`src/unnamed/part_002`
lines 152–187).  Note that the source draws `receiptId` (used only in the
`urn`) and `id` (the registry key) from two distinct `crypto.randomUUID()`
calls. -/
def mkReceipt (reg : RegistrationPayload) (fresh : FreshData) : Receipt :=
  { app := reg.app
    serviceId := fresh.serviceId
    serviceName := reg.service.name
    aliasName := fresh.aliasName
    callbackURL := reg.service.network.rpcEndpoint
    createdAt := fresh.now
    expiresAt := fresh.now + 604800000
    hc2InstanceId := reg.cert.payload.metadata.hc2InstanceId
    hc2InstancePublicKey := fresh.publicKeyPem
    hc2ServiceCertificateHash := fresh.certHash
    id := fresh.docId
    nonce := fresh.nonce
    urn := "urn:hcp:hc2:service-registration-receipt:" ++ fresh.receiptId }

/-- Embeds the state mutation of `registerService`: `#serviceRegistry.set(id,
receipt)` then `#services.add(serviceName)`, returning the receipt. -/
def registerService (st : RegistryState) (reg : RegistrationPayload)
    (fresh : FreshData) : RegistryState × Receipt :=
  let receipt := mkReceipt reg fresh
  ({ serviceRegistry := (receipt.id, receipt) :: st.serviceRegistry
     services :=
       if st.services.contains receipt.serviceName then st.services
       else receipt.serviceName :: st.services },
   receipt)

/-- A document of the external durable store, as written by the handler:
`{_id: receipt.id, claims: payload.service, receipt}`. -/
structure StoredDoc where
  claims : ServiceManifest
  receipt : Receipt
deriving DecidableEq, Repr

structure Store where
  docs : List (String × StoredDoc)
deriving DecidableEq, Repr

/-- HTTP outcome of `POST /api/v1/services`. -/
inductive RegistrationHttpResponse where
  /-- 401 with the given problem-document `type`. -/
  | unauthorized : String → RegistrationHttpResponse
  /-- 201 with the receipt body. -/
  | created : Receipt → RegistrationHttpResponse
  /-- the thrown store error reached `next(ex)`: 500 problem response. -/
  | serverError : RegistrationHttpResponse
deriving DecidableEq, Repr

structure PostServicesResult where
  response : RegistrationHttpResponse
  registry : RegistryState
  store : Store
deriving DecidableEq, Repr

/-- Embeds the `POST /api/v1/services` handler (`src/docker/hc2/index.js`
lines 136–177): validate the certificate claims (401 on mismatch), call
`registerService` — which mutates the in-memory registry — and only then
`await db.insert(…)`.  A store-write failure throws into the handler's
`catch`, producing a 500 via `next(ex)` with the registry mutation already
applied. -/
def postServices (st : RegistryState) (store : Store)
    (reg : RegistrationPayload) (fresh : FreshData)
    (storeWriteSucceeds : Bool) : PostServicesResult :=
  if !validateCertificateClaims reg then
    { response := .unauthorized "/probs/cert-claims-invalid"
      registry := st
      store := store }
  else
    let registered := registerService st reg fresh
    if storeWriteSucceeds then
      { response := .created registered.2
        registry := registered.1
        store :=
          { docs := (registered.2.id,
              { claims := reg.service, receipt := registered.2 }) ::
                store.docs } }
    else
      { response := .serverError
        registry := registered.1
        store := store }

/-! Section: Certificate verification (`HC2Instance.verifyHC2ServiceCertificate`,
`POST /api/v1/certs/:id/verify`) -/

/-- A character `atob` accepts: the base64 alphabet plus padding. -/
def base64Char (c : Char) : Bool :=
  c.isAlphanum || c == '+' || c == '/' || c == '='

/-- Embeds the success condition of `atob` inside
`HC2Utilities.ArrayBuffer.fromBase64` (`src/unnamed/part_010`): `atob`
throws `InvalidCharacterError` on characters outside the base64 alphabet or
on an impossible length, and decodes otherwise. -/
def atobOk (s : String) : Bool :=
  decide (s.length % 4 ≠ 1) && s.toList.all base64Char

structure VerifyOutcome where
  isVerified : Bool
deriving DecidableEq, Repr

/-- Embeds `verifyHC2ServiceCertificate` (`src/unnamed/part_002` lines
90–114).  The RSA-PSS check over the re-encoded payload is the external
collaborator `cryptoVerify`.  A base64 decoding failure throws inside the
`try`; the `catch` only logs, so the function then resolves to `undefined`
(`none`) rather than `{isVerified: false}`. -/
def verifyHC2ServiceCertificate (cryptoVerify : String → CertPayload → Bool)
    (cert : CertEnvelope) : Option VerifyOutcome :=
  if atobOk cert.signature then
    some { isVerified := cryptoVerify cert.signature cert.payload }
  else
    none

/-- HTTP outcome of `POST /api/v1/certs/:id/verify`. -/
inductive VerifyHttpOutcome where
  /-- 204: certificate verified. -/
  | noContent : VerifyHttpOutcome
  /-- 403 problem `/probs/cert-invalid`. -/
  | forbidden : VerifyHttpOutcome
  /-- reading `certStatus.isVerified` on an `undefined` result threw a
  `TypeError`; the handler's `catch` only logs, so no response is sent. -/
  | noResponse : VerifyHttpOutcome
deriving DecidableEq, Repr

/-- Embeds the `POST /api/v1/certs/:id/verify` handler
(`src/docker/hc2/index.js` lines 110–133): it dereferences
`certStatus.isVerified` unconditionally on the result of
`verifyHC2ServiceCertificate`. -/
def postCertVerify (cryptoVerify : String → CertPayload → Bool)
    (cert : CertEnvelope) : VerifyHttpOutcome :=
  match verifyHC2ServiceCertificate cryptoVerify cert with
  | none => .noResponse
  | some outcome => if outcome.isVerified then .noContent else .forbidden

/-! Section: Change propagator (`onRegistrationUpdate` in
`src/docker/hc2-proxy/index.js`) -/

/-- One CouchDB change-feed event with its document payload. -/
structure ChangeEvent where
  deleted : Bool
  docId : String
  claims : ServiceManifest
  receiptId : String
deriving DecidableEq, Repr

/-- One entry of a profile's instance list, as pushed by
`onRegistrationUpdate`: a fresh UUID, the receipt id, a creation timestamp,
and the spread declarative claims. -/
structure ProfileInstance where
  entryId : Nat
  registrationReceiptId : String
  createdAt : Nat
  claims : ServiceManifest
deriving DecidableEq, Repr

/-- The gateway's materialized profile map (`serviceProfiles`), keyed by
service name, together with a counter supplying the fresh UUIDs /
timestamps the handler generates. -/
structure PropagatorState where
  profiles : List (String × List ProfileInstance)
  freshCounter : Nat
deriving DecidableEq, Repr

/-- Append an instance entry to the profile keyed by `name`, creating the
profile when absent (embeds the `if (!serviceProfiles[name])
serviceProfiles[name] = []` followed by `push`). -/
def upsertAppend (profiles : List (String × List ProfileInstance))
    (name : String) (entry : ProfileInstance) :
    List (String × List ProfileInstance) :=
  match profiles with
  | [] => [(name, [entry])]
  | (k, v) :: rest =>
    if k == name then (k, v ++ [entry]) :: rest
    else (k, v) :: upsertAppend rest name entry

/-- Embeds `onRegistrationUpdate` (`src/docker/hc2-proxy/index.js` lines
35–57): a change with `deleted` set returns early, leaving the profile map
untouched; otherwise a fresh instance entry is pushed onto the profile for
`doc.claims.name`. -/
def onRegistrationUpdate (st : PropagatorState) (ev : ChangeEvent) :
    PropagatorState :=
  if ev.deleted then st
  else
    { profiles := upsertAppend st.profiles ev.claims.name
        { entryId := st.freshCounter
          registrationReceiptId := ev.receiptId
          createdAt := st.freshCounter
          claims := ev.claims }
      freshCounter := st.freshCounter + 1 }

/-- The propagator state after consuming a change feed in sequence,
starting from the empty profile map. -/
def applyEvents (evs : List ChangeEvent) : PropagatorState :=
  evs.foldl onRegistrationUpdate { profiles := [], freshCounter := 0 }

/-- The document ids present in the durable store after the same feed: a
`deleted` change means the document left the store, any other change means
it is (still) present.  This is the store-side semantics of the CouchDB
change feed the propagator subscribes to. -/
def storeAfter (evs : List ChangeEvent) : List String :=
  evs.foldl
    (fun s ev =>
      if ev.deleted then s.erase ev.docId
      else if s.contains ev.docId then s else ev.docId :: s)
    []

/-- Whether any profile's instance list carries an entry for the given
receipt id. -/
def profilesHaveReceipt (st : PropagatorState) (receiptId : String) : Bool :=
  st.profiles.any
    (fun p => p.2.any (fun e => e.registrationReceiptId == receiptId))

/-! Section: Concrete fixtures

The running example of the specification's scenarios (§8): the
`NOOPService` manifest of `current.ly`. -/

def exNetwork : ServiceNetwork :=
  { internalOnly := false
    publicHostName := "noop"
    rpcEndpoint := "http://noop_service:3001/rpc" }

def noopApi : ServiceApi := { methods := [{ name := "hello" }] }

def exManifest (version : String) : ServiceManifest :=
  { name := "NOOPService"
    version := version
    dependsOn := ["CacheService"]
    ports := [3001]
    api := noopApi
    network := exNetwork }

def exCertMetadata : CertMetadata :=
  { deploymentId := "dep-1"
    certificateId := "cert-1"
    hc2InstanceId := "hc2-1"
    issuedAt := 1700000000000
    expiresAt := 1700000000000 + 604800000 }

/-- A certificate attesting `version = "0.0.1"`. -/
def exCert : CertEnvelope :=
  { payload :=
      { claims := { app := "current.ly", service := exManifest "0.0.1" }
        metadata := exCertMetadata }
    signature := "c2lnbmF0dXJl" }

/-- A well-formed registration whose body matches the certificate claims. -/
def okReg : RegistrationPayload :=
  { app := "current.ly", service := exManifest "0.0.1", cert := exCert }

/-- Scenario §8.2: the registration body declares `version = "0.0.2"` while
the embedded certificate still attests `"0.0.1"`. -/
def tamperedReg : RegistrationPayload :=
  { app := "current.ly", service := exManifest "0.0.2", cert := exCert }

def exFresh : FreshData :=
  { serviceId := "svc-1"
    receiptId := "rcpt-1"
    docId := "doc-1"
    aliasName := "mellow-otter"
    nonce := "00112233445566778899aabbccddeeff"
    now := 1700000000000
    publicKeyPem := "PEM"
    certHash := "HASH" }

def initRegistry : RegistryState := { serviceRegistry := [], services := [] }

def emptyStore : Store := { docs := [] }

/-! Section: Helper lemmas -/

theorem upsertAppend_any (q : ProfileInstance → Bool)
    (ps : List (String × List ProfileInstance)) (name : String)
    (entry : ProfileInstance) :
    (upsertAppend ps name entry).any (fun p => p.2.any q) =
      (ps.any (fun p => p.2.any q) || q entry) := by
  induction ps with
  | nil => simp [upsertAppend]
  | cons hd tl ih =>
    obtain ⟨k, v⟩ := hd
    cases hk : (k == name) <;>
      simp [upsertAppend, hk, ih, List.any_append, Bool.or_assoc,
        Bool.or_comm, Bool.or_left_comm]

theorem upsertAppend_keys_mem
    (ps : List (String × List ProfileInstance)) (name : String)
    (entry : ProfileInstance) (x : String) :
    x ∈ (upsertAppend ps name entry).map Prod.fst →
      x ∈ ps.map Prod.fst ∨ x = name := by
  induction ps with
  | nil => simp [upsertAppend]
  | cons hd tl ih =>
    obtain ⟨k, v⟩ := hd
    cases hk : (k == name) with
    | true =>
      simp only [upsertAppend, hk, if_true, List.map_cons]
      exact fun h => Or.inl h
    | false =>
      intro hx
      simp only [upsertAppend, hk, Bool.false_eq_true, if_false,
        List.map_cons, List.mem_cons] at hx ⊢
      rcases hx with hx | hx
      · exact Or.inl (Or.inl hx)
      · rcases ih hx with h | h
        · exact Or.inl (Or.inr h)
        · exact Or.inr h

theorem upsertAppend_keys_nodup
    (ps : List (String × List ProfileInstance)) (name : String)
    (entry : ProfileInstance)
    (h : (ps.map Prod.fst).Nodup) :
    ((upsertAppend ps name entry).map Prod.fst).Nodup := by
  induction ps with
  | nil => simp [upsertAppend]
  | cons hd tl ih =>
    obtain ⟨k, v⟩ := hd
    simp only [List.map_cons, List.nodup_cons] at h
    cases hk : (k == name) with
    | true =>
      simp only [upsertAppend, hk, if_true, List.map_cons, List.nodup_cons]
      exact ⟨h.1, h.2⟩
    | false =>
      simp only [upsertAppend, hk, Bool.false_eq_true, if_false,
        List.map_cons, List.nodup_cons]
      refine ⟨?_, ih h.2⟩
      intro hmem
      rcases upsertAppend_keys_mem tl name entry k hmem with hin | heq
      · exact h.1 hin
      · rw [heq] at hk
        simp at hk

theorem foldl_profilesHaveReceipt (evs : List ChangeEvent)
    (st : PropagatorState) (r : String) :
    profilesHaveReceipt (evs.foldl onRegistrationUpdate st) r =
      (profilesHaveReceipt st r ||
        evs.any (fun ev => !ev.deleted && ev.receiptId == r)) := by
  induction evs generalizing st with
  | nil => simp
  | cons ev rest ih =>
    simp only [List.foldl_cons, List.any_cons, ih]
    cases hd : ev.deleted with
    | true => simp [onRegistrationUpdate, hd]
    | false =>
      simp only [onRegistrationUpdate, hd, Bool.false_eq_true, if_false,
        Bool.not_false, Bool.true_and]
      show (profilesHaveReceipt _ r || _) = _
      simp only [profilesHaveReceipt]
      rw [upsertAppend_any]
      cases profilesHaveReceipt st r <;>
        cases (ev.receiptId == r) <;>
        cases rest.any (fun e => !e.deleted && e.receiptId == r) <;>
        simp [profilesHaveReceipt]

theorem foldl_keys_nodup (evs : List ChangeEvent) (st : PropagatorState)
    (h : (st.profiles.map Prod.fst).Nodup) :
    (((evs.foldl onRegistrationUpdate st).profiles.map Prod.fst)).Nodup := by
  induction evs generalizing st with
  | nil => simpa using h
  | cons ev rest ih =>
    simp only [List.foldl_cons]
    apply ih
    cases hd : ev.deleted with
    | true => simpa [onRegistrationUpdate, hd] using h
    | false =>
      simp only [onRegistrationUpdate, hd, Bool.false_eq_true, if_false]
      exact upsertAppend_keys_nodup _ _ _ h

/-- Invariant of the lazy slot under a never-throwing factory: either no
invocation has happened, or exactly one has and it populated the cache. -/
theorem runReads_ok_invariant (factory : Nat → Except Unit Nat)
    (hf : ∀ i, (factory i).isOk) (n : Nat) :
    ((runReads factory n).cached = none ∧
        (runReads factory n).invocations = 0) ∨
      ((runReads factory n).cached.isSome ∧
        (runReads factory n).invocations = 1) := by
  induction n with
  | zero => exact Or.inl ⟨rfl, rfl⟩
  | succ n ih =>
    rcases ih with ⟨hc, hi⟩ | ⟨hc, hi⟩
    · cases hfact : factory (runReads factory n).invocations with
      | ok v =>
        refine Or.inr ?_
        rw [hi] at hfact
        simp [runReads, readSlot, hc, hi, hfact]
      | error e =>
        have := hf (runReads factory n).invocations
        rw [hfact] at this
        simp [Except.isOk, Except.toBool] at this
    · cases hsome : (runReads factory n).cached with
      | none => rw [hsome] at hc; simp at hc
      | some v =>
        refine Or.inr ?_
        simp [runReads, readSlot, hsome, hi]

/-! Section: Claim theorems -/

/-- Claim C1: the claim asserts that every invocation `my[X].m(params)`
through the SDK proxy returns an `HC2Result` envelope and never throws, in
particular that an unknown method name yields an error envelope.  The code
refutes this: with `NOOPService` registered and publishing only `hello`,
the property read of the unknown method `goodbye` on the `ServiceProxy`
logs and returns `undefined`, so invoking
`my.NOOPService.goodbye(params)` throws a `TypeError` at the caller
instead of producing any envelope. -/
theorem unknown_method_invocation_throws_not_envelope :
    serviceProxyGet noopApi "goodbye" = ServiceProxyMember.missing ∧
    myInvoke ["NOOPService"] [("NOOPService", noopApi)] "NOOPService"
        "goodbye" 0 (Except.ok (JsVal.objV [])) =
      InvokeOutcome.threwTypeError := by
  constructor <;> rfl

/-- Claim C2: the claim asserts that every top-level certificate claim
becomes a `const` match, so altering the service version on the
registration body while keeping the certificate fails registration with a
401 `/probs/cert-claims-invalid`.  The code refutes this: the template
const-matches only `app`, and validates `service` purely structurally, so
the body with `version = "0.0.2"` against a certificate attesting
`"0.0.1"` passes claim validation and the handler answers 201 with a
receipt. -/
theorem tampered_version_passes_claim_validation :
    validateCertificateClaims tamperedReg = true ∧
    (postServices initRegistry emptyStore tamperedReg exFresh true).response =
      RegistrationHttpResponse.created (mkReceipt tamperedReg exFresh) := by
  constructor <;> rfl

/-- Claim C3 (counterexample): the claim asserts that when the durable-store
write fails no partial state remains, the service registry in particular
being unchanged.  At a well-formed registration with a failing store the
registry after the handler differs from the registry before (it contains
the freshly minted receipt, which stays observable through
`GET /api/v1/services`). -/
theorem store_failure_leaves_registry_mutated :
    initRegistry.serviceRegistry = [] ∧
      (postServices initRegistry emptyStore okReg exFresh
          false).registry.serviceRegistry =
        [(exFresh.docId, mkReceipt okReg exFresh)] ∧
      ((postServices initRegistry emptyStore okReg exFresh
            false).registry.serviceRegistry.map Prod.fst).contains
          exFresh.docId = true := by
  refine ⟨rfl, rfl, rfl⟩

/-- Claim C3 (amended): on a claim-valid registration whose durable-store
write fails, the HTTP request fails (500 through `next(ex)`) and the
durable store is unchanged, but the instance's in-memory service registry
and services set retain the new registration produced by
`registerService`. -/
theorem store_failure_fails_request_but_keeps_memory_state
    (st : RegistryState) (store : Store) (reg : RegistrationPayload)
    (fresh : FreshData) (h : validateCertificateClaims reg = true) :
    postServices st store reg fresh false =
      { response := RegistrationHttpResponse.serverError
        registry := (registerService st reg fresh).1
        store := store } := by
  simp [postServices, h]

/-- Witness for the amended Claim C3 at the concrete well-formed
registration. -/
theorem store_failure_fails_request_but_keeps_memory_state_witness :
    validateCertificateClaims okReg = true ∧
    postServices initRegistry emptyStore okReg exFresh false =
      { response := RegistrationHttpResponse.serverError
        registry := (registerService initRegistry okReg exFresh).1
        store := emptyStore } :=
  ⟨by rfl,
   store_failure_fails_request_but_keeps_memory_state initRegistry emptyStore
     okReg exFresh (by rfl)⟩

/-- Claim C4: the claim asserts a `post_ex`-wrapped method returns exactly
the original's value whether the handler succeeds or throws.  The code
refutes the success half: `return result` appears only in the `catch`
block, so when the handler succeeds the wrapper resolves to `undefined`
even though the original returned `42`. -/
theorem post_ex_success_drops_original_result :
    postExWrap (fun _ => JsVal.numV 42) (fun _ _ => Except.ok ())
        [JsVal.strV "x"] = JsVal.undef ∧
      (fun (_ : List JsVal) => JsVal.numV 42) [JsVal.strV "x"] =
        JsVal.numV 42 := by
  exact ⟨rfl, rfl⟩

/-- Claim C5: sandbox access control is default-deny.  A module without a
policy entry gets the empty allow-set, so every property read through its
restricted `my` proxy raises a policy violation; a policied module's read
of a name outside its allow-set also raises a policy violation; a read of
an allowed name that is not a registered module slot raises a not-found
error. -/
theorem sandbox_default_deny_access_control
    (policies : List (String × Policy)) (registered : List String)
    (M X : String) :
    (policies.find? (fun p => p.1 == M) = none →
        restrictedMyGet policies registered M X = AccessResult.policyError) ∧
      (∀ pol, policies.find? (fun p => p.1 == M) = some pol →
        X ∉ pol.2.allowedAPIs →
        restrictedMyGet policies registered M X = AccessResult.policyError) ∧
      (∀ pol, policies.find? (fun p => p.1 == M) = some pol →
        X ∈ pol.2.allowedAPIs → X ∉ registered →
        restrictedMyGet policies registered M X =
          AccessResult.notFoundError) := by
  refine ⟨?_, ?_, ?_⟩
  · intro h
    simp [restrictedMyGet, allowedAPIsOf, h]
  · intro pol h hX
    simp [restrictedMyGet, allowedAPIsOf, h, hX]
  · intro pol h hX hreg
    simp [restrictedMyGet, allowedAPIsOf, h, hX, hreg]

/-- Witness for Claim C5, exercising all three denial modes on the
scenario §8.6 configuration. -/
theorem sandbox_default_deny_access_control_witness :
    restrictedMyGet [] ["NOOPService"] "FeedService" "NOOPService" =
        AccessResult.policyError ∧
      restrictedMyGet [("FeedService", { allowedAPIs := ["NOOPService"] })]
          ["NOOPService"] "FeedService" "CacheService" =
        AccessResult.policyError ∧
      restrictedMyGet [("FeedService", { allowedAPIs := ["NOOPService"] })]
          [] "FeedService" "NOOPService" =
        AccessResult.notFoundError := by
  refine ⟨?_, ?_, ?_⟩
  · exact (sandbox_default_deny_access_control [] ["NOOPService"]
      "FeedService" "NOOPService").1 rfl
  · exact (sandbox_default_deny_access_control
        [("FeedService", { allowedAPIs := ["NOOPService"] })] ["NOOPService"]
        "FeedService" "CacheService").2.1
      ("FeedService", { allowedAPIs := ["NOOPService"] }) rfl (by decide)
  · exact (sandbox_default_deny_access_control
        [("FeedService", { allowedAPIs := ["NOOPService"] })] []
        "FeedService" "NOOPService").2.2
      ("FeedService", { allowedAPIs := ["NOOPService"] }) rfl (by decide)
      (by decide)

/-- Claim C6: the claim asserts `verify_certificate` never yields a thrown
exception or an undefined result — a base64 decoding failure is supposed
to produce `verified = false`.  The code refutes this: on a signature that
`atob` rejects, the thrown decode error is caught, only logged, and the
function resolves to `undefined`; the verify endpoint then cannot read the
verification flag (its own dereference throws and its `catch` sends no
response). -/
theorem decode_failure_yields_undefined_not_verified_false :
    verifyHC2ServiceCertificate (fun _ _ => true)
        { payload := exCert.payload, signature := "$$not-base64$$" } =
      none ∧
    postCertVerify (fun _ _ => true)
        { payload := exCert.payload, signature := "$$not-base64$$" } =
      VerifyHttpOutcome.noResponse := by
  constructor <;> rfl

/-- Claim C7 (counterexample): the claim asserts an instance entry exists
iff the receipt is in the durable store, deletions being propagated.  On
the feed `[create doc-1/r-1, delete doc-1]` the store no longer holds the
document, yet the materialized profile map still carries the instance
entry for receipt `r-1` — the propagator ignores `deleted` changes. -/
theorem delete_event_leaves_instance_entry :
    profilesHaveReceipt (applyEvents
        [{ deleted := false, docId := "doc-1", claims := exManifest "0.0.1",
           receiptId := "r-1" },
         { deleted := true, docId := "doc-1", claims := exManifest "0.0.1",
           receiptId := "r-1" }]) "r-1" = true ∧
    (storeAfter
        [{ deleted := false, docId := "doc-1", claims := exManifest "0.0.1",
           receiptId := "r-1" },
         { deleted := true, docId := "doc-1", claims := exManifest "0.0.1",
           receiptId := "r-1" }]).contains "doc-1" = false := by
  constructor <;> rfl

/-- Claim C7 (amended): the materialized map keeps one profile per service
name (its keys stay pairwise distinct); a change with `deleted` set leaves
the profile map untouched; consequently an instance entry for a receipt
exists iff some non-deleted change carrying that receipt occurred in the
feed — entries are never removed when the receipt leaves the store. -/
theorem profile_map_tracks_nondeleted_changes_only (evs : List ChangeEvent) :
    (((applyEvents evs).profiles.map Prod.fst).Nodup) ∧
      (∀ (st : PropagatorState) (ev : ChangeEvent),
        onRegistrationUpdate st { ev with deleted := true } = st) ∧
      (∀ r, profilesHaveReceipt (applyEvents evs) r =
        evs.any (fun ev => !ev.deleted && ev.receiptId == r)) := by
  refine ⟨?_, ?_, ?_⟩
  · exact foldl_keys_nodup evs _ (by simp)
  · intro st ev
    rfl
  · intro r
    have := foldl_profilesHaveReceipt evs
      { profiles := [], freshCounter := 0 } r
    simpa [applyEvents, profilesHaveReceipt] using this

/-- Claim C8: the pre-mode shape rule of the plugin wrapper.  The code path
through `validatePluginOutput` and the inferred-signature checks agrees
pointwise with the specification's rule: handler failure or a
non-conforming return shape aborts the wrapper path (falling back to the
original arguments); `undefined` forwards the original arguments; an
object return replaces the single options-object argument; an array
return replaces the positional arguments. -/
theorem pre_ex_shape_rule (args : List JsVal)
    (handlerOutcome : Except Unit JsVal) :
    preExPath args handlerOutcome = preExPathSpec args handlerOutcome := by
  match handlerOutcome with
  | .error _ => rfl
  | .ok r =>
    cases r <;> cases hopt : originalAcceptsOptionsObject args <;>
      simp [preExPath, preExPathSpec, validatePluginOutput, isArrayV,
        isObjectV, isUndefinedV, hopt]

/-- Claim C9 (counterexample): the claim asserts the module factory is
invoked no more than once across any sequence of reads, including reads
after an invocation threw.  With a factory that throws on its first
invocation and succeeds afterwards, two reads of the slot invoke the
factory twice: the getter only caches successful constructions, so a read
after a failure re-invokes the factory. -/
theorem factory_reinvoked_after_throwing_read :
    (runReads
        (fun i => match i with
          | 0 => Except.error ()
          | _ => Except.ok 7) 2).invocations = 2 ∧
      1 < (runReads
        (fun i => match i with
          | 0 => Except.error ()
          | _ => Except.ok 7) 2).invocations := by
  exact ⟨rfl, by decide⟩

/-- Claim C9 (amended): lazy construction is at-most-once as long as
construction succeeds: with a never-throwing factory, any number of reads
invokes the factory at most once; and for every factory, once a read has
cached an instance, every further read returns that same instance and
leaves the slot (hence the invocation count) unchanged. -/
theorem lazy_construction_at_most_once_on_success
    (factory : Nat → Except Unit Nat) :
    ((∀ i, (factory i).isOk) →
        ∀ n, (runReads factory n).invocations ≤ 1) ∧
      (∀ s v, s.cached = some v → readSlot factory s = (s, some v)) := by
  constructor
  · intro hf n
    rcases runReads_ok_invariant factory hf n with ⟨_, hi⟩ | ⟨_, hi⟩ <;>
      simp [hi]
  · intro s v h
    simp [readSlot, h]

/-- Witness for the amended Claim C9: three reads of a slot whose factory
always succeeds invoke it at most once, and a cached slot is returned
as-is. -/
theorem lazy_construction_at_most_once_on_success_witness :
    (runReads (fun _ => Except.ok 5) 3).invocations ≤ 1 ∧
      readSlot (fun _ => Except.ok 5) { cached := some 5, invocations := 1 } =
        ({ cached := some 5, invocations := 1 }, some 5) :=
  ⟨(lazy_construction_at_most_once_on_success (fun _ => Except.ok 5)).1
      (fun _ => rfl) 3,
   (lazy_construction_at_most_once_on_success (fun _ => Except.ok 5)).2
      { cached := some 5, invocations := 1 } 5 rfl⟩

/-- Claim C10: every `HC2Result` envelope is immutable after construction.
The constructor freezes both the envelope and its `__metadata` object, so
under JavaScript frozen-object assignment semantics every attempted write
to `hasError`, `data`, `error` or a `__metadata` field leaves the
constructed envelope unchanged. -/
theorem hc2result_immutable_after_construction
    (service method : Option String) (source : String) (timestamp : Nat)
    (data : Option JsVal) (error : Option HC2ErrorInput)
    (b : Bool) (v : JsVal) (e : Option HC2ErrorOut) (s : String) (t : Nat) :
    setHasError (mkHC2Result service method source timestamp data error) b =
        mkHC2Result service method source timestamp data error ∧
      setData (mkHC2Result service method source timestamp data error) v =
        mkHC2Result service method source timestamp data error ∧
      setError (mkHC2Result service method source timestamp data error) e =
        mkHC2Result service method source timestamp data error ∧
      setMetadataSource
          (mkHC2Result service method source timestamp data error) s =
        mkHC2Result service method source timestamp data error ∧
      setMetadataTimestamp
          (mkHC2Result service method source timestamp data error) t =
        mkHC2Result service method source timestamp data error := by
  refine ⟨?_, ?_, ?_, ?_, ?_⟩ <;> rfl

end Honeycomb
